import Mathlib

/-!
Verification of the `mcp_calendar/server.py` event-creation pipeline.

This file contains a shallow embedding, in Lean, of the pure logic of the
single source file `src/mcp_calendar/server.py`: the temporal normalizer
(`_is_all_day_str`, `_parse_when`, `_date_from_str`, `_ensure_end_after_start`),
the retry classifier and wrapper (`_http_status_from_error`, `_should_retry`,
`_with_retries`), the payload normalizers (`_normalize_attendees`,
`_normalize_reminders`) and the body of the `create_event` tool.

Python library functions used by that code are modelled explicitly:

* `datetime.fromisoformat` is modelled by `fromisoformat` below, covering the
  grammar `YYYY-MM-DD[<sep>HH:MM[:SS][±HH:MM]]` (4-2-2 digit date, any single
  separator character, colon-separated time, optional `±HH:MM` UTC offset with
  magnitude strictly below 24 hours).  Fractional seconds are not modelled; no
  input appearing in this development uses them.
* `datetime.strptime(s, "%Y-%m-%d")` is modelled by `strptimeDate` (exactly
  four year digits, one-or-two digit month and day, full-string match, and the
  resulting date must be a real calendar date in years 1..9999).
* Python `date`/`datetime` values are modelled by `YMD` and `DT`; comparison of
  `datetime` values follows Python: offset-aware values compare as instants,
  offset-naive values compare by wall clock, and comparing a naive value with
  an aware one raises `TypeError`.  `date + timedelta(days=1)` is modelled by
  `dateAddOneDay`, which raises `OverflowError` past `date.max = 9999-12-31`,
  as CPython does.
* Python exceptions are modelled by the inductive `PyExc`; `googleapiclient`'s
  `HttpError` is the constructor `PyExc.httpError` carrying the optional
  `status_code` attribute, the optional `resp.status` attribute, the optional
  decoded `content`, and its `str()` rendering.
* The wall clock read by `int(time.time()*1000)` is passed in explicitly as a
  natural number of milliseconds; the network call performed by `_insert` is
  passed in as a function from the attempt index to that attempt's outcome.

Dictionaries with the fixed keys `date`/`dateTime`/`timeZone` are modelled by
the structure `When` with `Option` fields (an absent key is `none`); the
`dict` lookups `when["date"]` in the source are modelled with `Option.getD`
and are only reached with the field present along paths produced by
`_parse_when`.
-/

namespace GCalMCP

/-- Decidable equality of `Except` results, used to evaluate concrete runs
of the embedded functions. -/
instance {ε α : Type} [DecidableEq ε] [DecidableEq α] : DecidableEq (Except ε α)
  | .ok a, .ok b =>
    if h : a = b then .isTrue (by rw [h])
    else .isFalse (by intro hc; cases hc; exact h rfl)
  | .error a, .error b =>
    if h : a = b then .isTrue (by rw [h])
    else .isFalse (by intro hc; cases hc; exact h rfl)
  | .ok _, .error _ => .isFalse (by intro hc; cases hc)
  | .error _, .ok _ => .isFalse (by intro hc; cases hc)

/-- Model of the Python exceptions that flow through `server.py`.
`httpError` models `googleapiclient.errors.HttpError` with its optional
`status_code` attribute, optional `resp.status`, optional decoded `content`
and `str()` rendering; `generic` models any other exception class by its
class name and message; `exception` models a bare `Exception(msg)` raised by
`create_event` itself. -/
inductive PyExc where
  | valueError (msg : String)
  | typeError (msg : String)
  | overflowError (msg : String)
  | httpError (statusCode : Option Nat) (respStatus : Option Nat)
      (content : Option String) (asStr : String)
  | generic (name msg : String)
  | exception (msg : String)
deriving DecidableEq, Repr

/-- `type(error).__name__` for the modelled exceptions. -/
def excName : PyExc → String
  | .valueError _ => "ValueError"
  | .typeError _ => "TypeError"
  | .overflowError _ => "OverflowError"
  | .httpError _ _ _ _ => "HttpError"
  | .generic n _ => n
  | .exception _ => "Exception"

/-- `str(error)` for the modelled exceptions. -/
def excStr : PyExc → String
  | .valueError m => m
  | .typeError m => m
  | .overflowError m => m
  | .httpError _ _ _ s => s
  | .generic _ m => m
  | .exception m => m

/-- Model of Python `str.strip()`: drop leading and trailing whitespace
characters.  (Python strips all Unicode whitespace; the inputs handled here
only ever carry ASCII whitespace, which `Char.isWhitespace` covers.) -/
def pyStrip (s : String) : String :=
  ⟨((s.data.dropWhile Char.isWhitespace).reverse.dropWhile
      Char.isWhitespace).reverse⟩

/-! ### Digit reading helpers for the date/time parsers -/

/-- Numeric value of a decimal digit character. -/
def digitVal (c : Char) : Nat := c.toNat - 48

/-- Read exactly `k` decimal digits, most significant first, accumulating
into `acc`; fails if a non-digit (or end of input) is met. -/
def readDigitsAux (acc : Nat) : Nat → List Char → Option (Nat × List Char)
  | 0, cs => some (acc, cs)
  | k + 1, c :: cs =>
    if c.isDigit then readDigitsAux (10 * acc + digitVal c) k cs else none
  | _ + 1, [] => none

/-- Read one or two decimal digits (maximal munch), as the `strptime`
directives `%m` and `%d` do. -/
def read12 : List Char → Option (Nat × List Char)
  | c :: d :: cs =>
    if c.isDigit then
      if d.isDigit then some (10 * digitVal c + digitVal d, cs)
      else some (digitVal c, d :: cs)
    else none
  | [c] => if c.isDigit then some (digitVal c, []) else none
  | [] => none

/-- Consume one expected character. -/
def expectChar (c : Char) : List Char → Option (List Char)
  | x :: xs => if x = c then some xs else none
  | [] => none

/-! ### Calendar arithmetic (model of Python `date` / `datetime`) -/

/-- Gregorian leap-year rule, as implemented by Python's `datetime` module. -/
def isLeap (y : Nat) : Bool := (y % 4 == 0 && y % 100 != 0) || y % 400 == 0

/-- Number of days in month `m` of year `y`. -/
def daysInMonth (y m : Nat) : Nat :=
  if m = 2 then (if isLeap y then 29 else 28)
  else if m = 4 ∨ m = 6 ∨ m = 9 ∨ m = 11 then 30
  else 31

/-- A calendar date, model of Python `datetime.date` (valid range 1..9999). -/
structure YMD where
  year : Nat
  month : Nat
  day : Nat
deriving DecidableEq, Repr

/-- Validity of a date, matching Python's `datetime.date` constructor
(`MINYEAR = 1`, `MAXYEAR = 9999`). -/
def validDate (y m d : Nat) : Bool :=
  1 ≤ y && y ≤ 9999 && 1 ≤ m && m ≤ 12 && 1 ≤ d && d ≤ daysInMonth y m

/-- Python `date` comparison: lexicographic on (year, month, day). -/
def dateLe (a b : YMD) : Bool :=
  a.year < b.year ||
    (a.year == b.year &&
      (a.month < b.month || (a.month == b.month && a.day ≤ b.day)))

/-- Model of `d + timedelta(days=1)` on `datetime.date`: the successor of a
valid calendar date; raises `OverflowError` past `date.max = 9999-12-31`,
exactly as CPython does. -/
def dateAddOneDay (x : YMD) : Except PyExc YMD :=
  if x.day < daysInMonth x.year x.month then .ok ⟨x.year, x.month, x.day + 1⟩
  else if x.month < 12 then .ok ⟨x.year, x.month + 1, 1⟩
  else if x.year < 9999 then .ok ⟨x.year + 1, 1, 1⟩
  else .error (.overflowError "date value out of range")

/-- Cumulative days before month `m` in a non-leap year. -/
def cumDays : Nat → Nat
  | 1 => 0 | 2 => 31 | 3 => 59 | 4 => 90 | 5 => 120 | 6 => 151
  | 7 => 181 | 8 => 212 | 9 => 243 | 10 => 273 | 11 => 304 | 12 => 334
  | _ => 0

/-- Proleptic Gregorian ordinal of a date (day 1 = 0001-01-01), the same
quantity Python's `date.toordinal` computes; used to compare instants. -/
def toOrdinal (x : YMD) : Nat :=
  let y := x.year - 1
  365 * y + y / 4 - y / 100 + y / 400 + cumDays x.month +
    (if 2 < x.month && isLeap x.year then 1 else 0) + x.day

/-- Model of a Python `datetime`: a date, a time of day, and an optional UTC
offset in minutes (`none` = offset-naive). -/
structure DT where
  year : Nat
  month : Nat
  day : Nat
  hour : Nat
  minute : Nat
  second : Nat
  offsetMin : Option Int
deriving DecidableEq, Repr

/-- Wall-clock seconds of a `datetime` since the proleptic epoch, ignoring
the offset. -/
def wallSec (t : DT) : Nat :=
  ((toOrdinal ⟨t.year, t.month, t.day⟩ * 24 + t.hour) * 60 + t.minute) * 60 +
    t.second

/-- Comparison key of a `datetime`: the UTC instant for aware values, the
wall clock for naive values. -/
def dtKey (t : DT) : Int :=
  (wallSec t : Int) - 60 * t.offsetMin.getD 0

/-- Python `datetime.__le__`: aware values compare as instants, naive values
by wall clock; mixing naive and aware raises `TypeError`. -/
def dtLe (a b : DT) : Except PyExc Bool :=
  if a.offsetMin.isSome = b.offsetMin.isSome then .ok (dtKey a ≤ dtKey b)
  else .error (.typeError "cannot compare offset-naive and offset-aware datetimes")

/-! ### Model of `datetime.fromisoformat` and `datetime.strptime` -/

/-- Parse `HH:MM[:SS]` (colon separated, two digits each); returns the
remaining input. -/
def parseHMS (cs : List Char) : Option ((Nat × Nat × Nat) × List Char) := do
  let (h, cs1) ← readDigitsAux 0 2 cs
  match cs1 with
  | ':' :: cs2 => do
    let (m, cs3) ← readDigitsAux 0 2 cs2
    match cs3 with
    | ':' :: cs4 => do
      let (s, cs5) ← readDigitsAux 0 2 cs4
      pure ((h, m, s), cs5)
    | _ => pure ((h, m, 0), cs3)
  | _ => none

/-- Parse the magnitude `HH:MM` of a UTC offset, requiring end of input; the
offset must be strictly below 24 hours, as Python requires. -/
def parseOffHM (cs : List Char) : Option Int := do
  let (h, cs1) ← readDigitsAux 0 2 cs
  match cs1 with
  | ':' :: cs2 => do
    let (m, cs3) ← readDigitsAux 0 2 cs2
    if cs3 = [] ∧ h < 24 ∧ m < 60 then pure ((h * 60 + m : Nat) : Int) else none
  | _ => none

/-- Parse an optional trailing UTC offset `±HH:MM`; `none` result field means
the timestamp was offset-naive. -/
def parseOff : List Char → Option (Option Int)
  | [] => some none
  | '+' :: cs => (parseOffHM cs).map (fun o => some o)
  | '-' :: cs => (parseOffHM cs).map (fun o => some (-o))
  | _ => none

/-- Model of `datetime.fromisoformat` (see the header comment for the exact
grammar modelled): `YYYY-MM-DD` optionally followed by a single separator
character, `HH:MM[:SS]`, and an optional `±HH:MM` offset. -/
def fromisoformat (s : String) : Option DT := do
  let cs := s.data
  let (y, cs) ← readDigitsAux 0 4 cs
  let cs ← expectChar '-' cs
  let (mo, cs) ← readDigitsAux 0 2 cs
  let cs ← expectChar '-' cs
  let (d, cs) ← readDigitsAux 0 2 cs
  if validDate y mo d then
    match cs with
    | [] => pure ⟨y, mo, d, 0, 0, 0, none⟩
    | _ :: rest => do
      let ((h, mi, se), rest2) ← parseHMS rest
      if h < 24 ∧ mi < 60 ∧ se < 60 then
        let off ← parseOff rest2
        pure ⟨y, mo, d, h, mi, se, off⟩
      else none
  else none

/-- Model of `datetime.strptime(s, "%Y-%m-%d").date()`: exactly four year
digits, one-or-two digit month and day separated by hyphens, nothing left
over, and the result must be a valid calendar date. -/
def strptimeDate (s : String) : Option YMD := do
  let cs := s.data
  let (y, cs) ← readDigitsAux 0 4 cs
  let cs ← expectChar '-' cs
  let (m, cs) ← read12 cs
  let cs ← expectChar '-' cs
  let (d, cs) ← read12 cs
  if cs = [] ∧ validDate y m d then pure ⟨y, m, d⟩ else none

/-- Left-pad the decimal rendering of `n` with zeros to width `w`. -/
def padNum (w n : Nat) : String :=
  ⟨List.replicate (w - (toString n).length) '0'⟩ ++ toString n

/-- Model of `date.strftime("%Y-%m-%d")`. -/
def formatDate (x : YMD) : String :=
  padNum 4 x.year ++ "-" ++ padNum 2 x.month ++ "-" ++ padNum 2 x.day

/-! ### The temporal normalizer -/

/-- Model of `s.replace("Z", "+00:00")`: every occurrence of the character
`Z` is replaced by the six characters `+00:00`. -/
def replaceZ (s : String) : String :=
  ⟨s.data.foldr
    (fun c acc =>
      if c = 'Z' then '+' :: '0' :: '0' :: ':' :: '0' :: '0' :: acc
      else c :: acc) []⟩

/-- Embedding of `_is_all_day_str`: the trimmed string has exactly ten
characters, exactly two hyphens and no `T`. -/
def is_all_day_str (s : String) : Bool :=
  let t := pyStrip s
  t.length == 10 && (t.data.filter (fun c => c == '-')).length == 2 &&
    !(t.data.contains 'T')

/-- Model of the `{"date"./."dateTime"./."timeZone".}` dictionaries built by
`_parse_when`: an absent key is `none`. -/
structure When where
  date : Option String
  dateTime : Option String
  timeZone : String
deriving DecidableEq, Repr

/-- Embedding of `_parse_when`: an all-day-shaped string becomes a
`date` dictionary; anything else must survive `datetime.fromisoformat`
(after replacing `Z` by `+00:00`) and becomes a `dateTime` dictionary, else
`ValueError` is raised. -/
def parse_when (s tz : String) : Except PyExc When :=
  let t := pyStrip s
  if is_all_day_str t then .ok ⟨some t, none, tz⟩
  else
    match fromisoformat (replaceZ t) with
    | some _ => .ok ⟨none, some t, tz⟩
    | none => .error (.valueError ("Invalid ISO time format: " ++ t))

/-- Embedding of `_is_all_day_dict`. -/
def is_all_day_dict (w : When) : Bool := w.date.isSome && w.dateTime.isNone

/-- Embedding of the inner `_to_dt` of `_ensure_end_after_start`: a
`dateTime` entry is parsed after `Z` replacement; a `date`-only entry is
parsed as local midnight with the hard-coded `+09:00` suffix. -/
def to_dt (w : When) : Except PyExc DT :=
  match w.dateTime with
  | none =>
    match fromisoformat (w.date.getD "" ++ "T00:00:00+09:00") with
    | some t => .ok t
    | none =>
      .error (.valueError
        ("Invalid isoformat string: " ++ (w.date.getD "" ++ "T00:00:00+09:00")))
  | some s =>
    match fromisoformat (replaceZ s) with
    | some t => .ok t
    | none => .error (.valueError ("Invalid isoformat string: " ++ replaceZ s))

/-- Embedding of `_ensure_end_after_start`.  Both ends all-day: parse the
dates with `strptime`; if `end <= start` rewrite the end to `start + 1 day`;
otherwise return the pair unchanged.  Any other combination: convert both
ends with `_to_dt` and raise `ValueError` when `end <= start`. -/
def ensure_end_after_start (sw ew : When) : Except PyExc (When × When) :=
  if is_all_day_dict sw && is_all_day_dict ew then
    match strptimeDate (sw.date.getD "") with
    | none =>
      .error (.valueError
        ("time data " ++ sw.date.getD "" ++ " does not match format %Y-%m-%d"))
    | some s =>
      match strptimeDate (ew.date.getD "") with
      | none =>
        .error (.valueError
          ("time data " ++ ew.date.getD "" ++ " does not match format %Y-%m-%d"))
      | some e =>
        if dateLe e s then
          match dateAddOneDay s with
          | .ok s1 => .ok (sw, { ew with date := some (formatDate s1) })
          | .error err => .error err
        else .ok (sw, ew)
  else
    match to_dt sw with
    | .error err => .error err
    | .ok sd =>
      match to_dt ew with
      | .error err => .error err
      | .ok ed =>
        match dtLe ed sd with
        | .error err => .error err
        | .ok le =>
          if le then .error (.valueError "end_time must be after start_time")
          else .ok (sw, ew)

/-! ### The retry classifier and the resilient invoker -/

/-- Embedding of `_http_status_from_error`: prefer a truthy `status_code`
attribute, fall back to a truthy `resp.status`, else no status.  (Python's
truthiness makes a status of `0` fall through, which the `Nat` zero tests
mirror; the `int(...)` conversions cannot fail on these values.) -/
def http_status_from_error (statusCode respStatus : Option Nat) : Option Nat :=
  match statusCode with
  | some n =>
    if n ≠ 0 then some n
    else
      match respStatus with
      | some m => if m ≠ 0 then some m else none
      | none => none
  | none =>
    match respStatus with
    | some m => if m ≠ 0 then some m else none
    | none => none

/-- Embedding of `_should_retry`: an `HttpError` is retried iff an extracted
status is `429` or in `[500, 600)` (an `HttpError` with no extractable
status is not retried); every non-`HttpError` exception is retried. -/
def should_retry (e : PyExc) : Bool :=
  match e with
  | .httpError sc rs _ _ =>
    match http_status_from_error sc rs with
    | none => false
    | some status => status == 429 || (500 ≤ status && status < 600)
  | _ => true

/-- Embedding of the loop inside `_with_retries`.  `op k` is the outcome of
the `k`-th invocation of the wrapped callable (counting from 0); the sleep
between attempts has no bearing on the returned value and is not modelled.
The second component of the result is one past the index of the last
attempt, so starting from attempt `0` it is the number of invocations
performed. -/
def with_retries_go {α : Type} (op : Nat → Except PyExc α)
    (retries attempt : Nat) : Except PyExc α × Nat :=
  match op attempt with
  | .ok a => (.ok a, attempt + 1)
  | .error e =>
    if retries ≤ attempt ∨ should_retry e = false then (.error e, attempt + 1)
    else with_retries_go op retries (attempt + 1)
termination_by retries + 1 - attempt
decreasing_by
  rename_i h
  push_neg at h
  omega

/-- Embedding of `_with_retries func retries` applied to no arguments: run
the loop from attempt 0. -/
def with_retries {α : Type} (op : Nat → Except PyExc α) (retries : Nat) :
    Except PyExc α × Nat :=
  with_retries_go op retries 0

/-! ### Payload normalizers and the `create_event` tool body -/

/-- Embedding of `_normalize_attendees`: a missing or empty list collapses
to `None`; each entry is skipped when falsy, stripped, and kept only when
non-blank; an empty result collapses to `None`. -/
def normalize_attendees (attendees : Option (List String)) :
    Option (List String) :=
  match attendees with
  | none => none
  | some l =>
    if l = [] then none
    else
      let out := l.filterMap (fun e =>
        if e = "" then none
        else
          let email := pyStrip e
          if email = "" then none else some email)
      if out = [] then none else some out

/-- One entry of the caller-supplied `reminders["overrides"]` list; absent
keys are `none`. -/
structure ReminderOverrideIn where
  method : Option String
  minutes : Option Int
deriving DecidableEq, Repr

/-- The caller-supplied `reminders` dictionary; absent keys are `none`. -/
structure RemindersIn where
  useDefault : Option Bool
  overrides : Option (List ReminderOverrideIn)
deriving DecidableEq, Repr

/-- One sanitized reminder override. -/
structure ReminderOverride where
  method : String
  minutes : Int
deriving DecidableEq, Repr

/-- The sanitized `reminders` payload field. -/
structure Reminders where
  useDefault : Bool
  overrides : List ReminderOverride
deriving DecidableEq, Repr

/-- Embedding of `_normalize_reminders`: a missing (or falsy) `reminders`
argument yields the popup-in-10-minutes default; otherwise each override's
method defaults to `"popup"` when falsy and is stripped, and its minutes
default to 10 and are clamped into `[0, 40320]`. -/
def normalize_reminders (r : Option RemindersIn) : Reminders :=
  match r with
  | none => ⟨false, [⟨"popup", 10⟩]⟩
  | some rem =>
    let use_default := rem.useDefault.getD false
    let overrides := rem.overrides.getD []
    let cleaned := overrides.map (fun o =>
      let method := pyStrip
        (match o.method with
         | none => "popup"
         | some m => if m = "" then "popup" else m)
      let minutes := o.minutes.getD 10
      ⟨method, max 0 (min minutes 40320)⟩)
    ⟨use_default, cleaned⟩

/-- The arguments of the `create_event` tool, with the protocol-level
defaults of the Python signature filled in by the caller of the model. -/
structure CreateArgs where
  summary : String
  start_time : String
  end_time : String
  description : Option String
  location : Option String
  attendees : Option (List String)
  reminders : Option RemindersIn
  calendar_id : String
  timezone_str : String
  create_meet_link : Bool
deriving DecidableEq, Repr

/-- The outbound event document assembled by `create_event`; `none` fields
are omitted from the JSON body.  Attendee dictionaries `{"email": e}` are
modelled by their email string; the conference request
`{"createRequest": {"requestId": id}}` is modelled by its id. -/
structure EventDoc where
  summary : String
  start : When
  stop : When
  reminders : Reminders
  description : Option String
  location : Option String
  attendees : Option (List String)
  conferenceRequestId : Option String
deriving DecidableEq, Repr

/-- The configured default timezone (`MCP_TIMEZONE` falls back to
`Asia/Seoul`; the environment override is ambient configuration and the
fallback value is used here). -/
def DEFAULT_TZ : String := "Asia/Seoul"

/-- Embedding of `tz = (timezone_str or DEFAULT_TZ).strip() or DEFAULT_TZ`. -/
def resolveTz (timezone_str : String) : String :=
  let t0 := if timezone_str = "" then DEFAULT_TZ else timezone_str
  let t1 := pyStrip t0
  if t1 = "" then DEFAULT_TZ else t1

/-- Embedding of the conference request id
`f"mcp-\x7bint(time.time()*1000)\x7d"`, as a function of the observed
millisecond clock reading. -/
def confRequestId (clockMs : Nat) : String := "mcp-" ++ toString clockMs

/-- Assembly of the outbound event document in `create_event` (after the
span has been normalized): optional scalar fields are included only when
truthy, attendees only when the normalized list is non-empty, and the
conference request only when a meeting link was asked for. -/
def buildEvent (a : CreateArgs) (sw ew : When) (clockMs : Nat) : EventDoc :=
  { summary := a.summary
    start := sw
    stop := ew
    reminders := normalize_reminders a.reminders
    description :=
      match a.description with
      | some d => if d = "" then none else some d
      | none => none
    location :=
      match a.location with
      | some l => if l = "" then none else some l
      | none => none
    attendees := normalize_attendees a.attendees
    conferenceRequestId :=
      if a.create_meet_link then some (confRequestId clockMs) else none }

/-- The JSON object returned by the calendar service on success; only the
`htmlLink` field is consumed by `create_event`. -/
structure InsertResponse where
  htmlLink : Option String
deriving DecidableEq, Repr

/-- Embedding of the body of the `create_event` tool.  `clockMs` is the
millisecond clock reading used for the conference request id; `op doc k` is
the outcome of the `k`-th attempt of the `_insert` closure for the built
document `doc`.  Normalization runs before the `try` block, so its
exceptions propagate as they are; failures of the retried network call are
re-raised as a single `Exception` whose message starts with
`"Failed to create event: "`, carrying the decoded `HttpError` content when
available. -/
def create_event (a : CreateArgs) (clockMs : Nat)
    (op : EventDoc → Nat → Except PyExc InsertResponse) :
    Except PyExc String :=
  let tz := resolveTz a.timezone_str
  match parse_when a.start_time tz with
  | .error e => .error e
  | .ok sw0 =>
    match parse_when a.end_time tz with
    | .error e => .error e
    | .ok ew0 =>
      match ensure_end_after_start sw0 ew0 with
      | .error e => .error e
      | .ok (sw, ew) =>
        let event := buildEvent a sw ew clockMs
        match (with_retries (op event) 3).1 with
        | .ok response =>
          .ok ("Event created: " ++ response.htmlLink.getD "No link available")
        | .error (.httpError _ _ content asStr) =>
          let c := content.getD ""
          let detail := if c = "" then asStr else c
          .error (.exception
            ("Failed to create event: Google API error. " ++ detail))
        | .error e =>
          .error (.exception
            ("Failed to create event: " ++ excName e ++ ": " ++ excStr e))

/-- Whether a tool outcome is the wrapped error the specification promises:
a raised `Exception` whose message starts with `"Failed to create event: "`. -/
def isWrappedToolError : Except PyExc String → Bool
  | .error (.exception m) => m.startsWith "Failed to create event: "
  | _ => false

/-- Whether an exception is one the normalization phase can raise
(`ValueError`, `TypeError` or `OverflowError`), as opposed to a wrapped
network failure. -/
def isNormalizationError : PyExc → Bool
  | .valueError _ => true
  | .typeError _ => true
  | .overflowError _ => true
  | _ => false

/-- Whether an exception is an `HttpError`. -/
def isHttpErrorExc : PyExc → Bool
  | .httpError _ _ _ _ => true
  | _ => false

/-- The HTTP status `_http_status_from_error` extracts from an exception
(`none` for non-`HttpError` exceptions). -/
def extractedStatus : PyExc → Option Nat
  | .httpError sc rs _ _ => http_status_from_error sc rs
  | _ => none

/-! ### Supporting lemmas -/

/-- The value returned by the retry loop is always the outcome of the last
attempt made, whatever that outcome was. -/
theorem with_retries_go_last {α : Type} (op : Nat → Except PyExc α)
    (retries attempt : Nat) :
    (with_retries_go op retries attempt).1 =
      op ((with_retries_go op retries attempt).2 - 1) := by
  induction attempt using with_retries_go.induct op retries with
  | case1 x a h => rw [with_retries_go, h]; simp [h]
  | case2 x e h hstop =>
    rw [with_retries_go, h]
    dsimp only
    rw [if_pos hstop]
    simp [h]
  | case3 x e h hstop ih =>
    rw [with_retries_go, h]
    dsimp only
    rw [if_neg hstop]
    exact ih

/-- Bound on the number of attempts made by the retry loop. -/
theorem with_retries_go_calls {α : Type} (op : Nat → Except PyExc α)
    (retries attempt : Nat) :
    (with_retries_go op retries attempt).2 ≤ max (retries + 1) (attempt + 1) := by
  induction attempt using with_retries_go.induct op retries with
  | case1 x a h => rw [with_retries_go, h]; simp
  | case2 x e h hstop =>
    rw [with_retries_go, h]
    dsimp only
    rw [if_pos hstop]
    simp
  | case3 x e h hstop ih =>
    rw [with_retries_go, h]
    dsimp only
    rw [if_neg hstop]
    push_neg at hstop
    omega

/-- Decode a list of decimal digit characters back to the number. -/
def decDigits (l : List Char) : Nat :=
  l.foldl (fun a c => 10 * a + digitVal c) 0

theorem digitVal_digitChar (m : Nat) (h : m < 10) :
    digitVal (Nat.digitChar m) = m := by
  interval_cases m <;> rfl

theorem toDigitsCore_acc (fuel n : Nat) (ds : List Char) :
    Nat.toDigitsCore 10 fuel n ds = Nat.toDigitsCore 10 fuel n [] ++ ds := by
  induction fuel generalizing n ds with
  | zero => simp [Nat.toDigitsCore]
  | succ f ih =>
    simp only [Nat.toDigitsCore]
    by_cases h : n / 10 = 0
    · simp [h]
    · simp only [h, if_false]
      rw [ih (n / 10) (Nat.digitChar (n % 10) :: ds),
        ih (n / 10) [Nat.digitChar (n % 10)]]
      simp

theorem decDigits_append (l : List Char) (c : Char) :
    decDigits (l ++ [c]) = 10 * decDigits l + digitVal c := by
  simp [decDigits, List.foldl_append]

/-- Decimal rendering round-trips through decoding. -/
theorem decDigits_toDigitsCore (fuel n : Nat) (h : n < fuel) :
    decDigits (Nat.toDigitsCore 10 fuel n []) = n := by
  induction fuel generalizing n with
  | zero => omega
  | succ f ih =>
    simp only [Nat.toDigitsCore]
    by_cases h0 : n / 10 = 0
    · have hn : n < 10 := by omega
      simp only [h0, if_true, eq_self_iff_true]
      have : n % 10 = n := Nat.mod_eq_of_lt hn
      simp [decDigits, this, digitVal_digitChar n hn]
    · simp only [h0, if_false]
      rw [toDigitsCore_acc, decDigits_append]
      have h1 : n / 10 < f := by
        have h2 : n / 10 < n := Nat.div_lt_self (by omega) (by omega)
        omega
      rw [ih _ h1]
      have h3 : digitVal (Nat.digitChar (n % 10)) = n % 10 :=
        digitVal_digitChar _ (Nat.mod_lt _ (by omega))
      omega

/-- The decimal rendering of a natural number determines the number. -/
theorem natRepr_inj (m n : Nat) (h : Nat.repr m = Nat.repr n) : m = n := by
  have hd : Nat.toDigits 10 m = Nat.toDigits 10 n := by
    have := congrArg String.data h
    simpa [Nat.repr, List.asString] using this
  have hm := decDigits_toDigitsCore (m + 1) m (Nat.lt_succ_self m)
  have hn := decDigits_toDigitsCore (n + 1) n (Nat.lt_succ_self n)
  unfold Nat.toDigits at hd
  rw [hd] at hm
  omega

theorem data_append (a b : String) : (a ++ b).data = a.data ++ b.data := by
  cases a; cases b; rfl

/-- A fold of the `Z`-replacement step over a `Z`-free list only rebuilds
the list in front of the accumulator. -/
theorem foldr_no_z (l : List Char) (acc : List Char)
    (h : l.contains 'Z' = false) :
    l.foldr
      (fun c acc =>
        if c = 'Z' then '+' :: '0' :: '0' :: ':' :: '0' :: '0' :: acc
        else c :: acc) acc = l ++ acc := by
  induction l with
  | nil => rfl
  | cons c cs ih =>
    simp only [List.contains_cons, Bool.or_eq_false_iff] at h
    obtain ⟨h1, h2⟩ := h
    have hc : ¬(c = 'Z') := by
      intro hc
      rw [hc] at h1
      simp at h1
    simp only [List.foldr_cons, if_neg hc, ih h2, List.cons_append]

/-- Conference request ids coincide exactly when the observed millisecond
clock readings coincide. -/
theorem confRequestId_inj (t1 t2 : Nat) :
    confRequestId t1 = confRequestId t2 ↔ t1 = t2 := by
  constructor
  · intro h
    have hdata := congrArg String.data h
    rw [confRequestId, confRequestId, data_append, data_append] at hdata
    have : (toString t1).data = (toString t2).data :=
      List.append_cancel_left hdata
    exact natRepr_inj t1 t2 (String.ext this)
  · intro h; rw [h]

/-- On a string whose only `Z` is a trailing one, the `Z`-replacement of
`_parse_when` is exactly the specification's "treat a trailing `Z` as
`+00:00`". -/
theorem replaceZ_trailing (s : String) (h : s.data.contains 'Z' = false) :
    replaceZ (s ++ "Z") = s ++ "+00:00" := by
  cases s with
  | mk l =>
    apply String.ext
    show (replaceZ (⟨l⟩ ++ "Z")).data = (String.mk l ++ "+00:00").data
    rw [data_append]
    show (((⟨l⟩ : String) ++ "Z").data.foldr _ []) = l ++ "+00:00".data
    rw [data_append]
    show ((l ++ ['Z']).foldr _ []) = l ++ "+00:00".data
    rw [List.foldr_append]
    exact foldr_no_z l _ h

theorem head?_dropWhile {α : Type} (p : α → Bool) (l : List α) (c : α)
    (h : (l.dropWhile p).head? = some c) : p c = false := by
  induction l with
  | nil => simp [List.dropWhile] at h
  | cons x xs ih =>
    rw [List.dropWhile] at h
    by_cases hp : p x = true
    · rw [hp] at h; exact ih h
    · simp only [Bool.not_eq_true] at hp
      rw [hp] at h
      simp only [List.head?_cons, Option.some.injEq] at h
      rw [← h]; exact hp

theorem dropWhile_eq_self {α : Type} (p : α → Bool) (l : List α)
    (h : ∀ c, l.head? = some c → p c = false) : l.dropWhile p = l := by
  cases l with
  | nil => rfl
  | cons x xs =>
    rw [List.dropWhile]
    rw [h x rfl]

theorem getLast?_dropWhile {α : Type} (p : α → Bool) (l : List α)
    (hne : l.dropWhile p ≠ []) :
    (l.dropWhile p).getLast? = l.getLast? := by
  conv_rhs => rw [← List.takeWhile_append_dropWhile (p := p) (l := l)]
  rw [List.getLast?_append_of_ne_nil _ hne]

/-- Stripping is idempotent, so `_parse_when` testing `_is_all_day_str` on
an already-stripped string tests exactly the shape of that string. -/
theorem pyStrip_idem (s : String) : pyStrip (pyStrip s) = pyStrip s := by
  cases s with
  | mk l =>
    unfold pyStrip
    apply congrArg String.mk
    set A := l.dropWhile Char.isWhitespace with hA
    set B := A.reverse.dropWhile Char.isWhitespace with hB
    show ((B.reverse.dropWhile Char.isWhitespace).reverse.dropWhile
        Char.isWhitespace).reverse = B.reverse
    have hBr : B.reverse.dropWhile Char.isWhitespace = B.reverse := by
      apply dropWhile_eq_self
      intro c hc
      rw [List.head?_reverse] at hc
      by_cases hBe : B = []
      · rw [hBe] at hc; simp at hc
      · rw [hB] at hc
        rw [getLast?_dropWhile _ _ (by rw [← hB]; exact hBe)] at hc
        rw [List.getLast?_reverse] at hc
        by_cases hAe : A = []
        · rw [hAe] at hc; simp at hc
        · exact head?_dropWhile Char.isWhitespace l c (by rw [← hA, hc])
    rw [hBr]
    have hBh : B.reverse.reverse.dropWhile Char.isWhitespace =
        B.reverse.reverse := by
      apply dropWhile_eq_self
      intro c hc
      rw [List.reverse_reverse] at hc
      exact head?_dropWhile Char.isWhitespace A.reverse c (by rw [← hB, hc])
    rw [hBh]
    rw [List.reverse_reverse]

theorem is_all_day_str_pyStrip (s : String) :
    is_all_day_str (pyStrip s) = is_all_day_str s := by
  unfold is_all_day_str
  rw [pyStrip_idem]

/-- `_parse_when` only ever raises `ValueError`. -/
theorem parse_when_error_shape (s tz : String) (e : PyExc)
    (h : parse_when s tz = .error e) : isNormalizationError e = true := by
  unfold parse_when at h
  by_cases hc : is_all_day_str (pyStrip s) = true
  · rw [if_pos hc] at h; exact absurd h (by simp)
  · rw [if_neg hc] at h
    cases hf : fromisoformat (replaceZ (pyStrip s)) with
    | some t => rw [hf] at h; exact absurd h (by simp)
    | none =>
      rw [hf] at h
      simp only [Except.error.injEq] at h
      rw [← h]
      rfl

/-- The inner `_to_dt` only ever raises `ValueError`. -/
theorem to_dt_error_shape (w : When) (e : PyExc) (h : to_dt w = .error e) :
    isNormalizationError e = true := by
  unfold to_dt at h
  cases hdt : w.dateTime with
  | none =>
    rw [hdt] at h
    dsimp only at h
    cases hf : fromisoformat (w.date.getD "" ++ "T00:00:00+09:00") with
    | some t => rw [hf] at h; exact absurd h (by simp)
    | none =>
      rw [hf] at h
      simp only [Except.error.injEq] at h
      rw [← h]; rfl
  | some s =>
    rw [hdt] at h
    dsimp only at h
    cases hf : fromisoformat (replaceZ s) with
    | some t => rw [hf] at h; exact absurd h (by simp)
    | none =>
      rw [hf] at h
      simp only [Except.error.injEq] at h
      rw [← h]; rfl

/-- `date + timedelta(days=1)` fails only with `OverflowError`. -/
theorem dateAddOneDay_error_shape (x : YMD) (e : PyExc)
    (h : dateAddOneDay x = .error e) : isNormalizationError e = true := by
  unfold dateAddOneDay at h
  by_cases h1 : x.day < daysInMonth x.year x.month
  · rw [if_pos h1] at h; exact absurd h (by simp)
  · rw [if_neg h1] at h
    by_cases h2 : x.month < 12
    · rw [if_pos h2] at h; exact absurd h (by simp)
    · rw [if_neg h2] at h
      by_cases h3 : x.year < 9999
      · rw [if_pos h3] at h; exact absurd h (by simp)
      · rw [if_neg h3] at h
        simp only [Except.error.injEq] at h
        rw [← h]; rfl

/-- `datetime` comparison fails only with `TypeError`. -/
theorem dtLe_error_shape (a b : DT) (e : PyExc) (h : dtLe a b = .error e) :
    isNormalizationError e = true := by
  unfold dtLe at h
  by_cases hx : a.offsetMin.isSome = b.offsetMin.isSome
  · rw [if_pos hx] at h; exact absurd h (by simp)
  · rw [if_neg hx] at h
    simp only [Except.error.injEq] at h
    rw [← h]; rfl

/-- Every failure of `_ensure_end_after_start` is a normalization-class
exception (`ValueError`, `TypeError` or `OverflowError`). -/
theorem ensure_error_shape (sw ew : When) (e : PyExc)
    (h : ensure_end_after_start sw ew = .error e) :
    isNormalizationError e = true := by
  unfold ensure_end_after_start at h
  by_cases hb : (is_all_day_dict sw && is_all_day_dict ew) = true
  · rw [if_pos hb] at h
    cases h1 : strptimeDate (sw.date.getD "") with
    | none =>
      rw [h1] at h
      simp only [Except.error.injEq] at h
      rw [← h]; rfl
    | some s =>
      rw [h1] at h
      dsimp only at h
      cases h2 : strptimeDate (ew.date.getD "") with
      | none =>
        rw [h2] at h
        simp only [Except.error.injEq] at h
        rw [← h]; rfl
      | some e2 =>
        rw [h2] at h
        dsimp only at h
        by_cases hle : dateLe e2 s = true
        · rw [if_pos hle] at h
          cases h3 : dateAddOneDay s with
          | ok s1 => rw [h3] at h; exact absurd h (by simp)
          | error err =>
            rw [h3] at h
            simp only [Except.error.injEq] at h
            rw [← h]
            exact dateAddOneDay_error_shape s err h3
        · rw [if_neg hle] at h; exact absurd h (by simp)
  · rw [if_neg hb] at h
    cases hsd : to_dt sw with
    | error err =>
      rw [hsd] at h
      simp only [Except.error.injEq] at h
      rw [← h]
      exact to_dt_error_shape sw err hsd
    | ok sd =>
      rw [hsd] at h
      dsimp only at h
      cases hed : to_dt ew with
      | error err =>
        rw [hed] at h
        simp only [Except.error.injEq] at h
        rw [← h]
        exact to_dt_error_shape ew err hed
      | ok ed =>
        rw [hed] at h
        dsimp only at h
        cases hcmp : dtLe ed sd with
        | error err =>
          rw [hcmp] at h
          simp only [Except.error.injEq] at h
          rw [← h]
          exact dtLe_error_shape ed sd err hcmp
        | ok le =>
          rw [hcmp] at h
          dsimp only at h
          by_cases hl : le = true
          · rw [if_pos hl] at h
            simp only [Except.error.injEq] at h
            rw [← h]; rfl
          · rw [if_neg hl] at h; exact absurd h (by simp)

/-- Exhaustive description of the successful outcomes of
`_ensure_end_after_start`: the start is returned as given, and the end is
either returned as given or — only for an all-day/all-day span whose parsed
end date is `<=` the parsed start date — rewritten to the formatted
successor of the start date. -/
theorem ensure_ok_shape (sw ew sw' ew' : When)
    (h : ensure_end_after_start sw ew = .ok (sw', ew')) :
    sw' = sw ∧
      (ew' = ew ∨
        (is_all_day_dict sw = true ∧ is_all_day_dict ew = true ∧
          ∃ s e s1, strptimeDate (sw.date.getD "") = some s ∧
            strptimeDate (ew.date.getD "") = some e ∧ dateLe e s = true ∧
            dateAddOneDay s = .ok s1 ∧
            ew' = { ew with date := some (formatDate s1) })) := by
  unfold ensure_end_after_start at h
  by_cases hb : (is_all_day_dict sw && is_all_day_dict ew) = true
  · rw [if_pos hb] at h
    rw [Bool.and_eq_true] at hb
    cases h1 : strptimeDate (sw.date.getD "") with
    | none => rw [h1] at h; exact absurd h (by simp)
    | some s =>
      rw [h1] at h
      dsimp only at h
      cases h2 : strptimeDate (ew.date.getD "") with
      | none => rw [h2] at h; exact absurd h (by simp)
      | some e =>
        rw [h2] at h
        dsimp only at h
        by_cases hle : dateLe e s = true
        · rw [if_pos hle] at h
          cases h3 : dateAddOneDay s with
          | ok s1 =>
            rw [h3] at h
            dsimp only at h
            simp only [Except.ok.injEq, Prod.mk.injEq] at h
            exact ⟨h.1.symm, .inr ⟨hb.1, hb.2, s, e, s1, rfl, rfl, hle, h3,
              h.2.symm⟩⟩
          | error err => rw [h3] at h; exact absurd h (by simp)
        · rw [if_neg hle] at h
          simp only [Except.ok.injEq, Prod.mk.injEq] at h
          exact ⟨h.1.symm, .inl h.2.symm⟩
  · rw [if_neg hb] at h
    cases hsd : to_dt sw with
    | error err => rw [hsd] at h; exact absurd h (by simp)
    | ok sd =>
      rw [hsd] at h
      dsimp only at h
      cases hed : to_dt ew with
      | error err => rw [hed] at h; exact absurd h (by simp)
      | ok ed =>
        rw [hed] at h
        dsimp only at h
        cases hcmp : dtLe ed sd with
        | error err => rw [hcmp] at h; exact absurd h (by simp)
        | ok le =>
          rw [hcmp] at h
          dsimp only at h
          by_cases hl : le = true
          · rw [if_pos hl] at h; exact absurd h (by simp)
          · rw [if_neg hl] at h
            simp only [Except.ok.injEq, Prod.mk.injEq] at h
            exact ⟨h.1.symm, .inl h.2.symm⟩

/-! ### The claims -/

/-- C1, counterexample: an `HttpError` from which no HTTP status can be
extracted (no `status_code` attribute, no `resp.status`) has no extractable
status code, yet `_should_retry` classifies it as NOT retryable — the claim
says any error with no extractable status code is retryable by default. -/
theorem C1_counterexample :
    extractedStatus (.httpError none none none "connection reset") = none ∧
    should_retry (.httpError none none none "connection reset") = false :=
  ⟨rfl, rfl⟩

/-- C1, amended: the retry classifier treats an exception as retryable iff
either it is not an `HttpError` at all (transport/timeout class, retryable
by default), or it is an `HttpError` whose extracted status is 429 or in
[500, 600); an `HttpError` with no extractable status is terminal, as is
any other status (in particular 4xx other than 429). -/
theorem C1_retry_classifier (e : PyExc) :
    should_retry e = true ↔
      (isHttpErrorExc e = false ∨
        ∃ n, extractedStatus e = some n ∧ (n = 429 ∨ (500 ≤ n ∧ n < 600))) := by
  cases e with
  | httpError sc rs c s =>
    simp only [should_retry, isHttpErrorExc, extractedStatus]
    cases h : http_status_from_error sc rs with
    | none => simp
    | some n =>
      simp [Bool.or_eq_true, beq_iff_eq, Bool.and_eq_true, decide_eq_true_eq]
  | valueError m => simp [should_retry, isHttpErrorExc]
  | typeError m => simp [should_retry, isHttpErrorExc]
  | overflowError m => simp [should_retry, isHttpErrorExc]
  | generic n m => simp [should_retry, isHttpErrorExc]
  | exception m => simp [should_retry, isHttpErrorExc]

/-- C5: with the default policy (`retries = 3`, as both the parameter
default and the call site supply), the resilient invoker makes at most 4
attempts, and its result — success value or propagated error — is exactly
the outcome of the last attempt it made, unchanged. -/
theorem C5_resilient_invoker {α : Type} (op : Nat → Except PyExc α) :
    (with_retries op 3).2 ≤ 4 ∧
      (with_retries op 3).1 = op ((with_retries op 3).2 - 1) := by
  constructor
  · have h := with_retries_go_calls op 3 0
    simpa [with_retries] using h
  · exact with_retries_go_last op 3 0

/-- C9, counterexample: two distinct calls of the create-event tool (here
with different summaries and spans) that observe the same millisecond clock
reading receive the same conference request id `mcp-1000` — the claim says
the ids of two distinct calls are never equal. -/
theorem C9_counterexample :
    (⟨"event A", "2024-03-01", "2024-03-02", none, none, none, none,
      "primary", "Asia/Seoul", true⟩ : CreateArgs) ≠
      ⟨"event B", "2024-03-05", "2024-03-06", none, none, none, none,
        "primary", "Asia/Seoul", true⟩ ∧
    (buildEvent
      ⟨"event A", "2024-03-01", "2024-03-02", none, none, none, none,
        "primary", "Asia/Seoul", true⟩
      ⟨some "2024-03-01", none, "Asia/Seoul"⟩
      ⟨some "2024-03-02", none, "Asia/Seoul"⟩ 1000).conferenceRequestId =
      some "mcp-1000" ∧
    (buildEvent
      ⟨"event B", "2024-03-05", "2024-03-06", none, none, none, none,
        "primary", "Asia/Seoul", true⟩
      ⟨some "2024-03-05", none, "Asia/Seoul"⟩
      ⟨some "2024-03-06", none, "Asia/Seoul"⟩ 1000).conferenceRequestId =
      some "mcp-1000" :=
  ⟨by decide, rfl, rfl⟩

/-- C9, amended: when a meeting link is requested the outbound event
document carries the conference request id `mcp-` followed by the observed
millisecond clock reading, and the ids of two calls are equal iff their
clock readings are equal — so ids are fresh across calls only when the
calls observe distinct millisecond readings, which the code does not
itself guarantee. -/
theorem C9_conference_id (a : CreateArgs) (sw ew : When) (t1 t2 : Nat) :
    (a.create_meet_link = true →
      (buildEvent a sw ew t1).conferenceRequestId = some (confRequestId t1)) ∧
    (confRequestId t1 = confRequestId t2 ↔ t1 = t2) := by
  constructor
  · intro h
    simp [buildEvent, h]
  · exact confRequestId_inj t1 t2

/-- C9, witness: the amended theorem applied to a concrete call with a
meeting link requested and clock reading 77. -/
theorem C9_witness :
    (buildEvent
      ⟨"meet", "2024-03-01", "2024-03-02", none, none, none, none,
        "primary", "Asia/Seoul", true⟩
      ⟨some "2024-03-01", none, "Asia/Seoul"⟩
      ⟨some "2024-03-02", none, "Asia/Seoul"⟩ 77).conferenceRequestId =
      some (confRequestId 77) :=
  (C9_conference_id
    ⟨"meet", "2024-03-01", "2024-03-02", none, none, none, none,
      "primary", "Asia/Seoul", true⟩
    ⟨some "2024-03-01", none, "Asia/Seoul"⟩
    ⟨some "2024-03-02", none, "Asia/Seoul"⟩ 77 77).1 rfl

/-- C10: whenever span normalization returns, the start endpoint is exactly
the one given (never rewritten); when the two endpoints are not both
all-day, both come back unchanged; the end's `dateTime` and `timeZone`
entries are never touched; and the end changes only for an all-day/all-day
span whose parsed end date does not strictly succeed its parsed start
date. -/
theorem C10_frame (sw ew sw' ew' : When)
    (h : ensure_end_after_start sw ew = .ok (sw', ew')) :
    sw' = sw ∧
    (¬(is_all_day_dict sw = true ∧ is_all_day_dict ew = true) → ew' = ew) ∧
    ew'.dateTime = ew.dateTime ∧ ew'.timeZone = ew.timeZone ∧
    (ew' ≠ ew →
      is_all_day_dict sw = true ∧ is_all_day_dict ew = true ∧
        ∃ s e, strptimeDate (sw.date.getD "") = some s ∧
          strptimeDate (ew.date.getD "") = some e ∧ dateLe e s = true) := by
  obtain ⟨hsw, hcase⟩ := ensure_ok_shape sw ew sw' ew' h
  refine ⟨hsw, ?_, ?_, ?_, ?_⟩
  · intro hnot
    rcases hcase with he | ⟨ha, hb, _⟩
    · exact he
    · exact absurd ⟨ha, hb⟩ hnot
  · rcases hcase with he | ⟨_, _, s, e, s1, _, _, _, _, he⟩
    · rw [he]
    · rw [he]
  · rcases hcase with he | ⟨_, _, s, e, s1, _, _, _, _, he⟩
    · rw [he]
    · rw [he]
  · intro hne
    rcases hcase with he | ⟨ha, hb, s, e, s1, h1, h2, hle, _, _⟩
    · exact absurd he hne
    · exact ⟨ha, hb, s, e, h1, h2, hle⟩

/-- C10, witness: on the all-day span 2024-03-05 .. 2024-03-01 the
normalizer rewrites the end (to 2024-03-06), and the theorem's conditions
are all realized at that concrete run. -/
theorem C10_witness :
    is_all_day_dict (⟨some "2024-03-05", none, "Asia/Seoul"⟩ : When) = true ∧
    is_all_day_dict (⟨some "2024-03-01", none, "Asia/Seoul"⟩ : When) = true ∧
    ∃ s e, strptimeDate "2024-03-05" = some s ∧
      strptimeDate "2024-03-01" = some e ∧ dateLe e s = true :=
  (C10_frame ⟨some "2024-03-05", none, "Asia/Seoul"⟩
    ⟨some "2024-03-01", none, "Asia/Seoul"⟩
    ⟨some "2024-03-05", none, "Asia/Seoul"⟩
    ⟨some "2024-03-06", none, "Asia/Seoul"⟩ (by decide)).2.2.2.2 (by decide)

/-- C4, counterexample: the mixed span (all-day start 2024-03-01, timed end
2024-03-02T10:00:00+09:00) normalizes successfully with the two endpoints
keeping different variant kinds — the claim says both ends of every
successfully normalized span share one variant kind. -/
theorem C4_counterexample :
    ensure_end_after_start ⟨some "2024-03-01", none, "Asia/Seoul"⟩
        ⟨none, some "2024-03-02T10:00:00+09:00", "Asia/Seoul"⟩ =
      .ok (⟨some "2024-03-01", none, "Asia/Seoul"⟩,
        ⟨none, some "2024-03-02T10:00:00+09:00", "Asia/Seoul"⟩) ∧
    is_all_day_dict ⟨some "2024-03-01", none, "Asia/Seoul"⟩ = true ∧
    is_all_day_dict ⟨none, some "2024-03-02T10:00:00+09:00", "Asia/Seoul"⟩ =
      false :=
  ⟨by decide, rfl, rfl⟩

/-- C4, amended: normalization never coerces variants — each endpoint of a
successfully normalized span keeps exactly the variant kind its input
string implied, so mixed-kind spans stay mixed. -/
theorem C4_variant_preserved (sw ew sw' ew' : When)
    (h : ensure_end_after_start sw ew = .ok (sw', ew')) :
    is_all_day_dict sw' = is_all_day_dict sw ∧
    is_all_day_dict ew' = is_all_day_dict ew := by
  obtain ⟨hsw, hcase⟩ := ensure_ok_shape sw ew sw' ew' h
  subst hsw
  refine ⟨rfl, ?_⟩
  rcases hcase with he | ⟨_, hb, s, e, s1, _, _, _, _, he⟩
  · rw [he]
  · rw [he, hb]
    simp only [is_all_day_dict, Bool.and_eq_true] at hb
    simp [is_all_day_dict, hb.2]

/-- C4, witness: the amended theorem applied to the all-day run whose end
is rewritten from 2024-03-01 to 2024-03-02 (the rewritten end is still
all-day). -/
theorem C4_witness :
    is_all_day_dict (⟨some "2024-03-02", none, "Asia/Seoul"⟩ : When) =
      is_all_day_dict (⟨some "2024-03-01", none, "Asia/Seoul"⟩ : When) :=
  (C4_variant_preserved _ _ _ _
    (by decide :
      ensure_end_after_start ⟨some "2024-03-01", none, "Asia/Seoul"⟩
          ⟨some "2024-03-01", none, "Asia/Seoul"⟩ =
        .ok (⟨some "2024-03-01", none, "Asia/Seoul"⟩,
          ⟨some "2024-03-02", none, "Asia/Seoul"⟩))).2

/-- C6, counterexample: the all-day span 9999-12-31 .. 9999-12-31 has
`end <= start`, yet normalization does not succeed: the one-day repair
overflows Python's `date.max` and the call raises `OverflowError` — the
claim says normalization never fails for such spans. -/
theorem C6_counterexample :
    ensure_end_after_start ⟨some "9999-12-31", none, "Asia/Seoul"⟩
        ⟨some "9999-12-31", none, "Asia/Seoul"⟩ =
      .error (.overflowError "date value out of range") := by decide

/-- C6, amended: for an all-day/all-day span with parsed dates, if
`end <= start` the result is exactly the one-day repair `start + 1 day`
formatted back into the end — succeeding whenever `start + 1 day` is
representable, i.e. for every start other than 9999-12-31, where the
repair itself overflows — and if `end > start` the span is returned
unchanged. -/
theorem C6_all_day_repair (sw ew : When) (s e : YMD)
    (hs : is_all_day_dict sw = true) (he : is_all_day_dict ew = true)
    (h1 : strptimeDate (sw.date.getD "") = some s)
    (h2 : strptimeDate (ew.date.getD "") = some e) :
    (dateLe e s = true →
      ensure_end_after_start sw ew =
        (dateAddOneDay s).map
          (fun s1 => (sw, { ew with date := some (formatDate s1) }))) ∧
    (dateLe e s = false → ensure_end_after_start sw ew = .ok (sw, ew)) := by
  unfold ensure_end_after_start
  have hb : (is_all_day_dict sw && is_all_day_dict ew) = true := by
    rw [hs, he]; rfl
  rw [if_pos hb, h1, h2]
  dsimp only
  constructor
  · intro hle
    rw [if_pos hle]
    cases h3 : dateAddOneDay s with
    | ok s1 => rfl
    | error err => rfl
  · intro hle
    rw [if_neg]
    simp [hle]

/-- C6, witness: the degenerate all-day span 2024-03-01 .. 2024-03-01 is
repaired to end 2024-03-02, the specification's own end-to-end example. -/
theorem C6_witness :
    ensure_end_after_start ⟨some "2024-03-01", none, "Asia/Seoul"⟩
        ⟨some "2024-03-01", none, "Asia/Seoul"⟩ =
      .ok (⟨some "2024-03-01", none, "Asia/Seoul"⟩,
        ⟨some "2024-03-02", none, "Asia/Seoul"⟩) := by
  have h := (C6_all_day_repair ⟨some "2024-03-01", none, "Asia/Seoul"⟩
    ⟨some "2024-03-01", none, "Asia/Seoul"⟩ ⟨2024, 3, 1⟩ ⟨2024, 3, 1⟩
    rfl rfl rfl rfl).1 rfl
  exact h

/-- C7: a span whose two ends are both timed, with the end instant not
after the start instant, fails with `ValueError "end_time must be after
start_time"` (the specification's `InvalidSpan`), and no repair is
attempted. -/
theorem C7_timed_invalid_span (sw ew : When) (ss es : String) (sd ed : DT)
    (h1 : sw.dateTime = some ss) (h2 : ew.dateTime = some es)
    (h3 : fromisoformat (replaceZ ss) = some sd)
    (h4 : fromisoformat (replaceZ es) = some ed)
    (haw : ed.offsetMin.isSome = sd.offsetMin.isSome)
    (hle : dtKey ed ≤ dtKey sd) :
    ensure_end_after_start sw ew =
      .error (.valueError "end_time must be after start_time") := by
  unfold ensure_end_after_start
  have hsw : is_all_day_dict sw = false := by
    simp [is_all_day_dict, h1]
  rw [hsw]
  simp only [Bool.false_and, Bool.false_eq_true, if_false]
  have hsd : to_dt sw = .ok sd := by simp [to_dt, h1, h3]
  have hed : to_dt ew = .ok ed := by simp [to_dt, h2, h4]
  rw [hsd]
  dsimp only
  rw [hed]
  dsimp only
  have hcmp : dtLe ed sd = .ok true := by
    simp [dtLe, haw, hle]
  rw [hcmp]
  rfl

/-- C7, witness: the specification's end-to-end example — start
2024-03-01T09:00:00+09:00, end 2024-03-01T08:00:00+09:00 — fails with the
invalid-span `ValueError`. -/
theorem C7_witness :
    ensure_end_after_start
        ⟨none, some "2024-03-01T09:00:00+09:00", "Asia/Seoul"⟩
        ⟨none, some "2024-03-01T08:00:00+09:00", "Asia/Seoul"⟩ =
      .error (.valueError "end_time must be after start_time") :=
  C7_timed_invalid_span
    ⟨none, some "2024-03-01T09:00:00+09:00", "Asia/Seoul"⟩
    ⟨none, some "2024-03-01T08:00:00+09:00", "Asia/Seoul"⟩
    "2024-03-01T09:00:00+09:00" "2024-03-01T08:00:00+09:00"
    ⟨2024, 3, 1, 9, 0, 0, some 540⟩ ⟨2024, 3, 1, 8, 0, 0, some 540⟩
    rfl rfl rfl rfl rfl (by decide)

/-- C2, counterexample: a call with the malformed start time `"bogus"`
raises the raw `ValueError "Invalid ISO time format: bogus"` from the
normalizer — not an error of the form `"Failed to create event: <detail>"`
— because normalization runs before the `try` block of `create_event`. -/
theorem C2_counterexample :
    create_event
        ⟨"meeting", "bogus", "2024-03-01", none, none, none, none,
          "primary", "Asia/Seoul", false⟩ 1000 (fun _ _ => .ok ⟨none⟩) =
      .error (.valueError "Invalid ISO time format: bogus") ∧
    isWrappedToolError
      (create_event
        ⟨"meeting", "bogus", "2024-03-01", none, none, none, none,
          "primary", "Asia/Seoul", false⟩ 1000 (fun _ _ => .ok ⟨none⟩)) =
      false :=
  ⟨by decide, by decide⟩

/-- C2, amended: every outcome of the create-event tool is either the
success string `"Event created: <link>"`, or a raw normalization exception
(`ValueError` / `TypeError` / `OverflowError`, not wrapped), or a single
wrapped error string `"Failed to create event: <detail>"` (carrying, for
`HttpError`s, the decoded upstream content when present and the error's
`str()` otherwise — see the `httpError` branch of `create_event`). -/
theorem C2_failure_shapes (a : CreateArgs) (clockMs : Nat)
    (op : EventDoc → Nat → Except PyExc InsertResponse) :
    (∃ link, create_event a clockMs op = .ok ("Event created: " ++ link)) ∨
    (∃ e, create_event a clockMs op = .error e ∧
      isNormalizationError e = true) ∨
    (∃ d, create_event a clockMs op =
      .error (.exception ("Failed to create event: " ++ d))) := by
  unfold create_event
  dsimp only
  cases hs : parse_when a.start_time (resolveTz a.timezone_str) with
  | error e =>
    exact .inr (.inl ⟨e, rfl, parse_when_error_shape _ _ e hs⟩)
  | ok sw0 =>
    dsimp only
    cases he : parse_when a.end_time (resolveTz a.timezone_str) with
    | error e =>
      exact .inr (.inl ⟨e, rfl, parse_when_error_shape _ _ e he⟩)
    | ok ew0 =>
      dsimp only
      cases hen : ensure_end_after_start sw0 ew0 with
      | error e =>
        exact .inr (.inl ⟨e, rfl, ensure_error_shape _ _ e hen⟩)
      | ok p =>
        obtain ⟨sw, ew⟩ := p
        dsimp only
        cases hr : (with_retries (op (buildEvent a sw ew clockMs)) 3).1 with
        | ok r =>
          exact .inl ⟨r.htmlLink.getD "No link available", rfl⟩
        | error e =>
          cases e with
          | httpError sc rs content asStr =>
            exact .inr (.inr ⟨"Google API error. " ++
              (if content.getD "" = "" then asStr else content.getD ""), rfl⟩)
          | valueError m => exact .inr (.inr ⟨"ValueError: " ++ m, rfl⟩)
          | typeError m => exact .inr (.inr ⟨"TypeError: " ++ m, rfl⟩)
          | overflowError m =>
            exact .inr (.inr ⟨"OverflowError: " ++ m, rfl⟩)
          | exception m => exact .inr (.inr ⟨"Exception: " ++ m, rfl⟩)
          | generic n m =>
            refine .inr (.inr ⟨n ++ ": " ++ m, ?_⟩)
            simp only [String.append_assoc]
            rfl

/-- C3, counterexample: with caller timezone UTC, the span (timed start
2024-03-01T20:00:00+00:00, all-day end 2024-03-02) is rejected as an
invalid span, even though the end interpreted as local midnight in the
caller's timezone — 2024-03-02T00:00:00+00:00 — is strictly after the
start instant: the code compares against midnight at the hard-coded
`+09:00` offset instead of the supplied timezone. -/
theorem C3_counterexample :
    ensure_end_after_start ⟨none, some "2024-03-01T20:00:00+00:00", "UTC"⟩
        ⟨some "2024-03-02", none, "UTC"⟩ =
      .error (.valueError "end_time must be after start_time") ∧
    fromisoformat "2024-03-02T00:00:00+00:00" =
      some ⟨2024, 3, 2, 0, 0, 0, some 0⟩ ∧
    fromisoformat (replaceZ "2024-03-01T20:00:00+00:00") =
      some ⟨2024, 3, 1, 20, 0, 0, some 0⟩ ∧
    dtKey ⟨2024, 3, 1, 20, 0, 0, some 0⟩ <
      dtKey ⟨2024, 3, 2, 0, 0, 0, some 0⟩ :=
  ⟨by decide, by decide, by decide, by decide⟩

/-- C3, amended: for a span with a timed start and an all-day end, the
normalizer interprets the all-day end — for comparison purposes only — as
local midnight at the FIXED offset `+09:00` (the code's hard-coded Seoul
offset), ignoring the timezone supplied by the caller, and fails exactly
when that instant is not after the start instant; the stored endpoints are
unchanged on success. -/
theorem C3_fixed_seoul_midnight (sw ew : When) (ss d : String) (t0 t1 : DT)
    (hsw : sw.dateTime = some ss)
    (hed : ew.date = some d) (hedt : ew.dateTime = none)
    (h0 : fromisoformat (replaceZ ss) = some t0)
    (h1 : fromisoformat (d ++ "T00:00:00+09:00") = some t1)
    (haw : t1.offsetMin.isSome = t0.offsetMin.isSome) :
    ensure_end_after_start sw ew =
      (if dtKey t1 ≤ dtKey t0 then
        .error (.valueError "end_time must be after start_time")
      else .ok (sw, ew)) := by
  unfold ensure_end_after_start
  have hsw' : is_all_day_dict sw = false := by simp [is_all_day_dict, hsw]
  rw [hsw']
  simp only [Bool.false_and, Bool.false_eq_true, if_false]
  have hsd : to_dt sw = .ok t0 := by simp [to_dt, hsw, h0]
  have hed' : to_dt ew = .ok t1 := by simp [to_dt, hedt, hed, h1]
  rw [hsd]
  dsimp only
  rw [hed']
  dsimp only
  have hcmp : dtLe t1 t0 = .ok (decide (dtKey t1 ≤ dtKey t0)) := by
    simp [dtLe, haw]
  rw [hcmp]
  dsimp only
  by_cases hc : dtKey t1 ≤ dtKey t0
  · simp [hc]
  · simp [hc]

/-- C3, witness: the amended theorem applied to the timed start
2024-03-05T23:00:00+09:00 with all-day end 2024-03-05, whose +09:00
midnight is before the start, so the span is rejected. -/
theorem C3_witness :
    ensure_end_after_start
        ⟨none, some "2024-03-05T23:00:00+09:00", "Asia/Seoul"⟩
        ⟨some "2024-03-05", none, "Asia/Seoul"⟩ =
      .error (.valueError "end_time must be after start_time") := by
  have h := C3_fixed_seoul_midnight
    ⟨none, some "2024-03-05T23:00:00+09:00", "Asia/Seoul"⟩
    ⟨some "2024-03-05", none, "Asia/Seoul"⟩
    "2024-03-05T23:00:00+09:00" "2024-03-05"
    ⟨2024, 3, 5, 23, 0, 0, some 540⟩ ⟨2024, 3, 5, 0, 0, 0, some 540⟩
    rfl rfl rfl rfl rfl rfl
  rw [if_pos (by decide)] at h
  exact h

/-- C8: a caller-supplied time string is classified as an all-day date
exactly when its stripped form has ten characters, two hyphens and no `T`;
an all-day-classified string becomes the `date` variant; any other string
becomes the `dateTime` variant when it parses under `fromisoformat` (after
`Z` replacement) and otherwise fails with
`ValueError "Invalid ISO time format: ..."`; and on a string whose only
`Z` is trailing, the replacement is exactly "treat a trailing `Z` as
`+00:00`". -/
theorem C8_classification (s tz : String) :
    (is_all_day_str s = true ↔
      ((pyStrip s).length = 10 ∧
        ((pyStrip s).data.filter (fun c => c == '-')).length = 2 ∧
        (pyStrip s).data.contains 'T' = false)) ∧
    (is_all_day_str s = true →
      parse_when s tz = .ok ⟨some (pyStrip s), none, tz⟩) ∧
    (is_all_day_str s = false →
      (fromisoformat (replaceZ (pyStrip s))).isSome = true →
      parse_when s tz = .ok ⟨none, some (pyStrip s), tz⟩) ∧
    (is_all_day_str s = false →
      (fromisoformat (replaceZ (pyStrip s))).isSome = false →
      parse_when s tz =
        .error (.valueError ("Invalid ISO time format: " ++ pyStrip s))) ∧
    (s.data.contains 'Z' = false → replaceZ (s ++ "Z") = s ++ "+00:00") := by
  refine ⟨?_, ?_, ?_, ?_, replaceZ_trailing s⟩
  · unfold is_all_day_str
    constructor
    · intro h
      simp only [Bool.and_eq_true, beq_iff_eq, Bool.not_eq_true'] at h
      exact ⟨h.1.1, h.1.2, h.2⟩
    · rintro ⟨h1, h2, h3⟩
      simp only [Bool.and_eq_true, beq_iff_eq, Bool.not_eq_true']
      exact ⟨⟨h1, h2⟩, h3⟩
  · intro h
    unfold parse_when
    rw [if_pos (by rw [is_all_day_str_pyStrip]; exact h)]
  · intro h hiso
    unfold parse_when
    rw [if_neg (by rw [is_all_day_str_pyStrip, h]; simp)]
    cases hf : fromisoformat (replaceZ (pyStrip s)) with
    | some t => rfl
    | none => rw [hf] at hiso; simp at hiso
  · intro h hiso
    unfold parse_when
    rw [if_neg (by rw [is_all_day_str_pyStrip, h]; simp)]
    cases hf : fromisoformat (replaceZ (pyStrip s)) with
    | some t => rw [hf] at hiso; simp at hiso
    | none => rfl

/-- C8, witness: the classification theorem applied to the all-day string
`"2024-03-01"`, the unparsable string `"not a time"`, and a trailing-`Z`
replacement. -/
theorem C8_witness :
    parse_when "2024-03-01" "Asia/Seoul" =
      .ok ⟨some "2024-03-01", none, "Asia/Seoul"⟩ ∧
    parse_when "not a time" "Asia/Seoul" =
      .error (.valueError ("Invalid ISO time format: not a time")) ∧
    replaceZ ("2024-03-01T09:00:00" ++ "Z") =
      "2024-03-01T09:00:00" ++ "+00:00" :=
  ⟨(C8_classification "2024-03-01" "Asia/Seoul").2.1 (by decide),
    (C8_classification "not a time" "Asia/Seoul").2.2.2.1 (by decide)
      (by decide),
    (C8_classification "2024-03-01T09:00:00" "x").2.2.2.2 (by decide)⟩

end GCalMCP
